import Mathlib

/-!
# Verification of the incremental fetch/merge core of the Berlin wastewater dashboard

This development embeds the data-acquisition script (`fetchData.js`) of the
repository in Lean 4 and proves properties of its monthly interval planner,
duplicate filter, merge step and top-level run protocol.

The script manipulates calendar dates through the JavaScript `Date` built-in:

* `parseCustomDate` turns a `dd.mm.yyyy` string into a `Date` via the ISO
  string `new Date("yyyy-mm-dd")` (UTC midnight when the string is a valid
  ISO date, an invalid date otherwise);
* `new Date(year, monthIndex, day)` builds a date from components with
  month-overflow normalisation (and the historical remapping of years 0–99
  to 1900–1999);
* `formatDate` renders a `Date` as `YYYY-MM-DD` via `toISOString`.

We model a `Date` by its millisecond timestamp (an `Int`, days × 86400000),
exactly as ECMAScript does, and model the calendar conversions by the
proleptic Gregorian calendar.  The process timezone is assumed to be UTC
(the deployment runs in CI where `TZ` is UTC), so the local-time `Date`
component constructor and the UTC `toISOString` agree on the calendar day.

The conversion between (year, month, day) triples and day numbers is a
standard layered Gregorian algorithm (400/100/4/1-year layers, as in
`datetime`-style implementations); it is proved to be a two-sided match on
valid dates (`civil_days_roundtrip`), which is what makes the statements
about the planner's month arithmetic meaningful.
-/

/-- 1 if `y` is a Gregorian leap year, 0 otherwise. -/
def leapDays (y : Int) : Int :=
  if (y % 4 = 0 ∧ y % 100 ≠ 0) ∨ y % 400 = 0 then 1 else 0

/-- Days in month `m` of a year with `L` leap days (`L ∈ {0,1}`). -/
def daysInMonthL (L m : Int) : Int :=
  if m = 2 then 28 + L
  else if m = 4 ∨ m = 6 ∨ m = 9 ∨ m = 11 then 30 else 31

/-- Days in month `m` of year `y` (proleptic Gregorian). -/
def daysInMonth (y m : Int) : Int := daysInMonthL (leapDays y) m

/-- Days in the months before month `m` in a year with `L` leap days. -/
def daysBeforeMonth (L m : Int) : Int :=
  if m = 1 then 0 else if m = 2 then 31 else if m = 3 then 59 + L
  else if m = 4 then 90 + L else if m = 5 then 120 + L
  else if m = 6 then 151 + L else if m = 7 then 181 + L
  else if m = 8 then 212 + L else if m = 9 then 243 + L
  else if m = 10 then 273 + L else if m = 11 then 304 + L
  else 334 + L

/-- Number of days from 1970-01-01 (the ECMAScript epoch) to the proleptic
Gregorian date `y-m-d`.  719162 is the day count from 0001-01-01 to the
epoch. -/
def days_from_civil (y m d : Int) : Int :=
  365 * (y - 1) + (y - 1) / 4 - (y - 1) / 100 + (y - 1) / 400
    + daysBeforeMonth (leapDays y) m + (d - 1) - 719162

/-- Layered year extraction: 400/100/4/1-year layers with the end-of-cycle
corrections (`n1 = 4` is Dec 31 of a leap year, `n100 = 4` is Dec 31 of a
year divisible by 400). -/
def yearFromDays (z : Int) : Int :=
  if (z + 719162) % 146097 % 36524 % 1461 / 365 = 4 ∨
      (z + 719162) % 146097 / 36524 = 4 then
    400 * ((z + 719162) / 146097) + 100 * ((z + 719162) % 146097 / 36524)
      + 4 * ((z + 719162) % 146097 % 36524 / 1461)
      + (z + 719162) % 146097 % 36524 % 1461 / 365
  else
    400 * ((z + 719162) / 146097) + 100 * ((z + 719162) % 146097 / 36524)
      + 4 * ((z + 719162) % 146097 % 36524 / 1461)
      + (z + 719162) % 146097 % 36524 % 1461 / 365 + 1

/-- 0-based day of year of day number `z` (meaningful off the correction
cases). -/
def doyFromDays (z : Int) : Int := (z + 719162) % 146097 % 36524 % 1461 % 365

/-- Month from a 0-based day of year `doy` in a year with `L` leap days. -/
def monthOfDoy (doy L : Int) : Int :=
  if doy < 31 then 1 else if doy < 59 + L then 2 else if doy < 90 + L then 3
  else if doy < 120 + L then 4 else if doy < 151 + L then 5
  else if doy < 181 + L then 6 else if doy < 212 + L then 7
  else if doy < 243 + L then 8 else if doy < 273 + L then 9
  else if doy < 304 + L then 10 else if doy < 334 + L then 11 else 12

/-- Day of month from a 0-based day of year `doy` in a year with `L` leap
days. -/
def dayOfDoy (doy L : Int) : Int :=
  if doy < 31 then doy + 1 else if doy < 59 + L then doy - 30
  else if doy < 90 + L then doy - 58 - L
  else if doy < 120 + L then doy - 89 - L
  else if doy < 151 + L then doy - 119 - L
  else if doy < 181 + L then doy - 150 - L
  else if doy < 212 + L then doy - 180 - L
  else if doy < 243 + L then doy - 211 - L
  else if doy < 273 + L then doy - 242 - L
  else if doy < 304 + L then doy - 272 - L
  else if doy < 334 + L then doy - 303 - L
  else doy - 333 - L

/-- Month of day number `z`. -/
def monthFromDays (z : Int) : Int :=
  if (z + 719162) % 146097 % 36524 % 1461 / 365 = 4 ∨
      (z + 719162) % 146097 / 36524 = 4 then 12
  else monthOfDoy (doyFromDays z) (leapDays (yearFromDays z))

/-- Day of month of day number `z`. -/
def dayFromDays (z : Int) : Int :=
  if (z + 719162) % 146097 % 36524 % 1461 / 365 = 4 ∨
      (z + 719162) % 146097 / 36524 = 4 then 31
  else dayOfDoy (doyFromDays z) (leapDays (yearFromDays z))

/-- A calendar date, the model of a rendered `YYYY-MM-DD` string. -/
structure YMD where
  y : Int
  m : Int
  d : Int
deriving DecidableEq, Repr

/-- Gregorian date of day number `z` (inverse of `days_from_civil`). -/
def civil_from_days (z : Int) : YMD :=
  ⟨yearFromDays z, monthFromDays z, dayFromDays z⟩

/-- A `YMD` is a valid proleptic Gregorian date. -/
def YMD.Valid (c : YMD) : Prop :=
  1 ≤ c.m ∧ c.m ≤ 12 ∧ 1 ≤ c.d ∧ c.d ≤ daysInMonth c.y c.m

instance (c : YMD) : Decidable c.Valid := by
  unfold YMD.Valid; infer_instance

/-- Year of the calendar month following month `m` of year `y`. -/
def nextY (y m : Int) : Int := if m = 12 then y + 1 else y

/-- The calendar month following month `m`. -/
def nextM (m : Int) : Int := if m = 12 then 1 else m + 1

/-! ## Records and the core functions of the fetch script -/

/-- One measurement record as handled by the script.  Only `sample_number`
and `extraction_date` are inspected by the core logic (dedup key and sort
key); every other field of the JSON object is collapsed into the opaque
`rest` payload. -/
structure Record where
  sample_number : String
  extraction_date : String
  rest : String
deriving DecidableEq, Repr

/-- Milliseconds per day (ECMAScript time values are in ms). -/
def msPerDay : Int := 86400000

/-- `formatDate`: `date.toISOString().split("T")[0]` — the UTC calendar day
of a millisecond timestamp, as the `YYYY-MM-DD` triple it renders to. -/
def formatDate (ms : Int) : YMD := civil_from_days (ms / msPerDay)

/-- `"……".split(".")` on the character list of a string: splits at every
`'.'`, keeping empty segments, exactly like the JavaScript `String.split`
with a one-character separator. -/
def splitDots : List Char → List (List Char)
  | [] => [[]]
  | ch :: rest =>
    if ch = '.' then [] :: splitDots rest
    else
      match splitDots rest with
      | [] => [[ch]]
      | h :: t => (ch :: h) :: t

/-- Value of a digit string (the reading the ISO date parser gives to a
fixed-width digit field). -/
def digitsToNat (cs : List Char) : Nat :=
  cs.foldl (fun n c => 10 * n + (c.toNat - 48)) 0

/-- Digit-field of exactly `len` characters, as a number. -/
def toFixedNat (cs : List Char) (len : Nat) : Option Nat :=
  if cs.length = len ∧ cs.all Char.isDigit then some (digitsToNat cs) else none

/-- `parseCustomDate`: splits a `dd.mm.yyyy` string on `"."` and builds
`new Date("yyyy-mm-dd")`.  The rebuilt string is parsed by the ECMAScript
Date-Time-String-Format rules: it is a valid ISO date (UTC midnight) when
year, month and day are zero-padded digit strings of width 4/2/2 denoting a
real calendar date, and an invalid date (`NaN`) otherwise — `none` here.
(V8's lenient fallback parser for non-ISO shapes is implementation-defined
behaviour and is not modelled.) -/
def parseCustomDate (dateStr : String) : Option Int :=
  match splitDots dateStr.toList with
  | day :: month :: year :: _ =>
    match toFixedNat year 4, toFixedNat month 2, toFixedNat day 2 with
    | some y, some m, some d =>
      if 1 ≤ (m : Int) ∧ (m : Int) ≤ 12 ∧ 1 ≤ (d : Int) ∧
          (d : Int) ≤ daysInMonth (y : Int) (m : Int) then
        some (days_from_civil (y : Int) (m : Int) (d : Int) * msPerDay)
      else none
    | _, _, _ => none
  | _ => none

/-- Sort key of a record: the parsed timestamp of its `extraction_date`.
An unparseable date yields `NaN` in JavaScript; in the sort comparators a
`NaN` difference makes `SortCompare` treat the pair as equal, which we model
by the constant key 0 (the claims about ordering only concern datasets whose
dates parse, where the two coincide). -/
def dateKey (r : Record) : Int := (parseCustomDate r.extraction_date).getD 0

/-- Ascending order of the merge step's comparator:
`(a, b) => parseCustomDate(a.extraction_date) - parseCustomDate(b.extraction_date)`,
"before" meaning a comparator value ≤ 0. -/
def dateLe (a b : Record) : Prop := dateKey a ≤ dateKey b

instance : DecidableRel dateLe := fun a b => Int.decLe _ _

instance : IsTotal Record dateLe := ⟨fun a b => Int.le_total _ _⟩

instance : IsTrans Record dateLe := ⟨fun _ _ _ h1 h2 => le_trans h1 h2⟩

/-- Descending order of the comparator in `findLatestExtractionDate`:
`(a, b) => parseCustomDate(b.extraction_date) - parseCustomDate(a.extraction_date)`. -/
def dateGe (a b : Record) : Prop := dateKey b ≤ dateKey a

instance : DecidableRel dateGe := fun a b => Int.decLe _ _

instance : IsTotal Record dateGe := ⟨fun a b => Int.le_total _ _⟩

instance : IsTrans Record dateGe := ⟨fun _ _ _ h1 h2 => le_trans h2 h1⟩

/-- `combinedData.sort(cmp)` — ECMAScript `Array.prototype.sort` is a stable
sort ordered by the comparator; for a consistent comparator the output of a
stable sort is uniquely determined, so any stable sorting algorithm models
it. -/
def sortByDate (l : List Record) : List Record := l.insertionSort dateLe

/-- `filterDuplicates(existingData, newData)` (fetchData.js lines 62–71):
keeps the new entries for which no existing entry matches on both
`sample_number` and `extraction_date` (exact string equality). -/
def filterDuplicates (existingData newData : List Record) : List Record :=
  newData.filter fun newEntry =>
    !(existingData.any fun existingEntry =>
      existingEntry.sample_number == newEntry.sample_number &&
      existingEntry.extraction_date == newEntry.extraction_date)

/-- `findLatestExtractionDate(data)` (lines 127–135): `null` on empty input,
otherwise the `extraction_date` of the head of a descending-sorted copy
(`data.slice().sort(...)`). -/
def findLatestExtractionDate (data : List Record) : Option String :=
  if data.length = 0 then none
  else ((data.insertionSort dateGe).head?).map fun r => r.extraction_date

/-- `new Date(year, monthIndex, day)`: component constructor with JS month
normalisation (`monthIndex` is 0-based and overflows into the year) and the
historical remapping of year arguments 0–99 to 1900–1999.  The process
timezone is UTC, so the resulting local midnight is UTC midnight. -/
def jsMakeDateMs (year monthIndex day : Int) : Int :=
  let y := if 0 ≤ year ∧ year ≤ 99 then 1900 + year else year
  days_from_civil (y + monthIndex / 12) (monthIndex % 12 + 1) day * msPerDay

/-- The planner's window, `{startDate, endDate}` in `YYYY-MM-DD`. -/
structure FetchWindow where
  startDate : YMD
  endDate : YMD
deriving DecidableEq, Repr

/-- `getNextMonthInterval(lastDateStr)` (lines 40–53):
`nextMonthStart = new Date(y, m + 1, 1)`,
`nextNextMonthStart = new Date(y2, m2 + 1, 1)`,
`nextMonthEnd = new Date(nextNextMonthStart.getTime() - 1)` (one
millisecond before), both formatted through `formatDate`.  A last date that
parses to an invalid `Date` makes `toISOString` throw a `RangeError`, which
is modelled as `none` (the caller's catch-all turns it into exit code 1). -/
def getNextMonthInterval (lastDateStr : String) : Option FetchWindow :=
  match parseCustomDate lastDateStr with
  | none => none
  | some lastMs =>
    let c := civil_from_days (lastMs / msPerDay)
    let nextMonthStartMs := jsMakeDateMs c.y ((c.m - 1) + 1) 1
    let c2 := civil_from_days (nextMonthStartMs / msPerDay)
    let nextNextMonthStartMs := jsMakeDateMs c2.y ((c2.m - 1) + 1) 1
    let nextMonthEndMs := nextNextMonthStartMs - 1
    some ⟨formatDate nextMonthStartMs, formatDate nextMonthEndMs⟩

/-- Strict comparison of two formatted `YYYY-MM-DD` strings.  For dates
rendered with 4-digit years and zero-padded months/days, JavaScript string
comparison is exactly this lexicographic order on the numeric triples. -/
def ymdLt (a b : YMD) : Bool :=
  a.y < b.y || (a.y == b.y && (a.m < b.m || (a.m == b.m && a.d < b.d)))

/-! ## The top-level run (`fetchAllDataIncremental`) -/

/-- The data store file (`data/data.json`) as the run observes it. -/
inductive StoreFile where
  | unreadable
  | notJson
  | jsonNonArray
  | jsonArray (data : List Record)
deriving DecidableEq, Repr

/-- `readExistingData()` (lines 108–120): returns the parsed array when the
file is readable, parses, and is an array; every failure path (read error,
`JSON.parse` throw, explicit non-array throw) is caught and yields `[]`. -/
def readExistingData : StoreFile → List Record
  | .jsonArray data => data
  | _ => []

/-- Outcome of the HTTP POST in `fetchData`, from the caller's view:
either the transport layer throws (network failure, or `response.json()`
rejecting), or a response arrives with an `ok` flag and an optional
top-level `body` field. -/
inductive HttpOutcome where
  | transportError
  | response (ok : Bool) (body : Option (List Record))

/-- Why `fetchData` threw. -/
inductive FetchError where
  | transport
  | badStatus
  | missingBody
deriving DecidableEq, Repr

/-- `fetchData(startDate, endDate)` (lines 80–102): throws on transport
failure, on `!response.ok`, and on a missing `body` property; otherwise
returns `json.body`. -/
def fetchData : HttpOutcome → Except FetchError (List Record)
  | .transportError => .error .transport
  | .response ok body =>
    if !ok then .error .badStatus
    else
      match body with
      | none => .error .missingBody
      | some records => .ok records

/-- Observables of one run of `fetchAllDataIncremental`. -/
structure RunResult where
  fetched : Option FetchWindow
  written : Option (List Record)
  exitCode : Nat
  finalStore : StoreFile
deriving DecidableEq, Repr

/-- The window-computation block of the run (fetchData.js lines 149–164),
the code behind the spec's `computeNextWindow`: the fixed bootstrap window
`2022-02-01 … 2022-02-28` for an empty dataset; otherwise the next calendar
month after the latest extraction date, with the end clipped to today when
`nextInterval.endDate > todayStr`.  `.error` is a throw (empty/falsy latest
date, or `formatDate` throwing on an invalid parsed date), which the
caller's catch-all turns into exit code 1. -/
def computeWindow (existingData : List Record) (todayStr : YMD) :
    Except Unit FetchWindow :=
  if existingData.length = 0 then
    .ok ⟨⟨2022, 2, 1⟩, ⟨2022, 2, 28⟩⟩
  else
    match findLatestExtractionDate existingData with
    | none => .error ()
    | some latest =>
      if latest = "" then .error ()
      else
        match getNextMonthInterval latest with
        | none => .error ()
        | some iv =>
          .ok ⟨iv.startDate, if ymdLt todayStr iv.endDate then todayStr else iv.endDate⟩

/-- `fetchAllDataIncremental()` (lines 141–191).  `nowMs` is the timestamp
of `new Date()`; `fetchF` gives the HTTP outcome for the requested window.
The catch-all `try`/`catch` turns every throw into exit code 1; a normal
return is exit code 0.  The write (`fs.writeFile`) is modelled as
succeeding. -/
def fetchAllDataIncremental (store : StoreFile) (nowMs : Int)
    (fetchF : YMD → YMD → HttpOutcome) : RunResult :=
  let existingData := readExistingData store
  match computeWindow existingData (formatDate nowMs) with
  | .error _ => ⟨none, none, 1, store⟩
  | .ok w =>
    match fetchData (fetchF w.startDate w.endDate) with
    | .error _ => ⟨some w, none, 1, store⟩
    | .ok newData =>
      let uniqueNewData := filterDuplicates existingData newData
      if uniqueNewData.length = 0 then
        ⟨some w, none, 0, store⟩
      else
        let combinedData := sortByDate (existingData ++ uniqueNewData)
        ⟨some w, some combinedData, 0, .jsonArray combinedData⟩

/-- The dataset invariant "no two records share the same
`(sample_number, extraction_date)` pair". -/
def KeysDistinct (l : List Record) : Prop :=
  l.Pairwise fun a b =>
    ¬(a.sample_number = b.sample_number ∧ a.extraction_date = b.extraction_date)

instance (l : List Record) : Decidable (KeysDistinct l) := by
  unfold KeysDistinct; infer_instance

instance {e a : Type} [DecidableEq e] [DecidableEq a] : DecidableEq (Except e a) :=
  fun x y =>
    match x, y with
    | .ok v, .ok w => decidable_of_iff (v = w) (by simp)
    | .error v, .error w => decidable_of_iff (v = w) (by simp)
    | .ok _, .error _ => isFalse (fun h => Except.noConfusion h)
    | .error _, .ok _ => isFalse (fun h => Except.noConfusion h)

/-! ## Array aliasing model for the frame claims

JavaScript arrays are heap objects: `slice`, `concat` and `filter` allocate
fresh arrays, while `sort` mutates its receiver in place.  To state that the
script never mutates the caller's `existingData` array, we model a heap of
array objects and re-read the original reference after each operation. -/

/-- A heap of array objects addressed by `Nat` references; `next` is the
first unused address. -/
structure JSHeap where
  mem : Nat → List Record
  next : Nat

/-- Allocate a fresh array object. -/
def JSHeap.alloc (h : JSHeap) (v : List Record) : Nat × JSHeap :=
  (h.next, ⟨fun i => if i = h.next then v else h.mem i, h.next + 1⟩)

/-- `data.slice()` — copies into a fresh array. -/
def jsSlice (h : JSHeap) (r : Nat) : Nat × JSHeap := h.alloc (h.mem r)

/-- `arr.sort(cmp)` — sorts the array object in place. -/
def jsSortInPlace (h : JSHeap) (r : Nat) (rel : Record → Record → Prop)
    [DecidableRel rel] : JSHeap :=
  ⟨fun i => if i = r then (h.mem r).insertionSort rel else h.mem i, h.next⟩

/-- `a.concat(b)` — allocates a fresh array. -/
def jsConcat (h : JSHeap) (r1 r2 : Nat) : Nat × JSHeap :=
  h.alloc (h.mem r1 ++ h.mem r2)

/-- `filterDuplicates` at heap level: reads both arrays, allocates the
filtered result fresh (`Array.prototype.filter`). -/
def jsFilterDuplicates (h : JSHeap) (rExist rNew : Nat) : Nat × JSHeap :=
  h.alloc (filterDuplicates (h.mem rExist) (h.mem rNew))

/-- `findLatestExtractionDate` at heap level (lines 127–135): early return
on empty input, otherwise sort a `slice()` copy in place (descending) and
read the head of the copy. -/
def findLatestExtractionDateH (h : JSHeap) (dataRef : Nat) :
    Option String × JSHeap :=
  if (h.mem dataRef).length = 0 then (none, h)
  else
    let s := jsSlice h dataRef
    let h2 := jsSortInPlace s.2 s.1 dateGe
    (((h2.mem s.1).head?).map fun r => r.extraction_date, h2)

/-- The merge step (lines 177–181) at heap level:
`combinedData = existingData.concat(uniqueNewData)` then
`combinedData.sort(...)` in place. -/
def mergeStepH (h : JSHeap) (exist uniq : Nat) : Nat × JSHeap :=
  let c := jsConcat h exist uniq
  (c.1, jsSortInPlace c.2 c.1 dateLe)


/-! ## Theorems -/

theorem leapDays_cases (y : Int) : leapDays y = 0 ∨ leapDays y = 1 := by
  rw [leapDays.eq_def]; split <;> simp

theorem leapDays_one_iff (y : Int) :
    leapDays y = 1 ↔ ((y - 1) % 4 = 3 ∧ ((y - 1) % 100 ≠ 99 ∨ (y - 1) % 400 = 399)) := by
  rw [leapDays.eq_def]
  split <;> rename_i h
  · constructor
    · intro _; omega
    · intro _; rfl
  · constructor
    · intro h1; omega
    · intro h1; exfalso; omega

theorem layer_extract (a b c e doy L n : Int)
    (hb : 0 ≤ b ∧ b ≤ 3) (hc : 0 ≤ c ∧ c ≤ 24) (he : 0 ≤ e ∧ e ≤ 3)
    (hL : L = 0 ∨ L = 1) (hdoy : 0 ≤ doy ∧ doy ≤ 364 + L)
    (hn : n = 146097 * a + 36524 * b + 1461 * c + 365 * e + doy)
    (h364 : doy ≤ 364) :
    n / 146097 = a ∧ n % 146097 / 36524 = b ∧ n % 146097 % 36524 / 1461 = c ∧
      n % 146097 % 36524 % 1461 / 365 = e ∧ n % 146097 % 36524 % 1461 % 365 = doy := by
  have h1 : n / 146097 = a := by omega
  have h2 : n % 146097 = 36524 * b + 1461 * c + 365 * e + doy := by omega
  have h3 : n % 146097 / 36524 = b := by omega
  have h4 : n % 146097 % 36524 = 1461 * c + 365 * e + doy := by omega
  have h5 : n % 146097 % 36524 / 1461 = c := by omega
  have h6 : n % 146097 % 36524 % 1461 = 365 * e + doy := by omega
  have h7 : n % 146097 % 36524 % 1461 / 365 = e := by omega
  have h8 : n % 146097 % 36524 % 1461 % 365 = doy := by omega
  exact ⟨h1, h3, h5, h7, h8⟩

theorem layer_extract_leap400 (a n : Int)
    (hn : n = 146097 * a + 146096) :
    n / 146097 = a ∧ n % 146097 / 36524 = 4 ∧ n % 146097 % 36524 / 1461 = 0 ∧
      n % 146097 % 36524 % 1461 / 365 = 0 := by
  have h1 : n / 146097 = a := by omega
  have h2 : n % 146097 = 146096 := by omega
  have h3 : n % 146097 / 36524 = 4 := by omega
  have h4 : n % 146097 % 36524 = 0 := by omega
  have h5 : n % 146097 % 36524 / 1461 = 0 := by omega
  have h6 : n % 146097 % 36524 % 1461 = 0 := by omega
  have h7 : n % 146097 % 36524 % 1461 / 365 = 0 := by omega
  exact ⟨h1, h3, h5, h7⟩

theorem layer_extract_leap4 (a b c n : Int)
    (hb : 0 ≤ b ∧ b ≤ 3) (hc : 0 ≤ c ∧ c ≤ 23)
    (hn : n = 146097 * a + 36524 * b + 1461 * c + 1460) :
    n / 146097 = a ∧ n % 146097 / 36524 = b ∧ n % 146097 % 36524 / 1461 = c ∧
      n % 146097 % 36524 % 1461 / 365 = 4 := by
  have h1 : n / 146097 = a := by omega
  have h2 : n % 146097 = 36524 * b + 1461 * c + 1460 := by omega
  have h3 : n % 146097 / 36524 = b := by omega
  have h4 : n % 146097 % 36524 = 1461 * c + 1460 := by omega
  have h5 : n % 146097 % 36524 / 1461 = c := by omega
  have h6 : n % 146097 % 36524 % 1461 = 1460 := by omega
  have h7 : n % 146097 % 36524 % 1461 / 365 = 4 := by omega
  exact ⟨h1, h3, h5, h7⟩

theorem doy365_forces (L m d D : Int) (hL : L = 0 ∨ L = 1) (hm1 : 1 ≤ m) (hm2 : m ≤ 12)
    (hd1 : 1 ≤ d)
    (hd2 : d ≤ if m = 2 then 28 + L else if m = 4 ∨ m = 6 ∨ m = 9 ∨ m = 11 then 30 else 31)
    (hD : D = if m = 1 then 0 else if m = 2 then 31 else if m = 3 then 59 + L
      else if m = 4 then 90 + L else if m = 5 then 120 + L
      else if m = 6 then 151 + L else if m = 7 then 181 + L
      else if m = 8 then 212 + L else if m = 9 then 243 + L
      else if m = 10 then 273 + L else if m = 11 then 304 + L
      else 334 + L)
    (h365 : D + (d - 1) = 365) : m = 12 ∧ d = 31 ∧ L = 1 := by
  omega

theorem monthOfDoy_dbm (L m d D : Int) (hL : L = 0 ∨ L = 1) (hm1 : 1 ≤ m) (hm2 : m ≤ 12)
    (hd1 : 1 ≤ d)
    (hd2 : d ≤ if m = 2 then 28 + L else if m = 4 ∨ m = 6 ∨ m = 9 ∨ m = 11 then 30 else 31)
    (hD : D = if m = 1 then 0 else if m = 2 then 31 else if m = 3 then 59 + L
      else if m = 4 then 90 + L else if m = 5 then 120 + L
      else if m = 6 then 151 + L else if m = 7 then 181 + L
      else if m = 8 then 212 + L else if m = 9 then 243 + L
      else if m = 10 then 273 + L else if m = 11 then 304 + L
      else 334 + L) :
    monthOfDoy (D + (d - 1)) L = m := by
  rw [monthOfDoy.eq_def]
  omega

theorem dayOfDoy_dbm (L m d D : Int) (hL : L = 0 ∨ L = 1) (hm1 : 1 ≤ m) (hm2 : m ≤ 12)
    (hd1 : 1 ≤ d)
    (hd2 : d ≤ if m = 2 then 28 + L else if m = 4 ∨ m = 6 ∨ m = 9 ∨ m = 11 then 30 else 31)
    (hD : D = if m = 1 then 0 else if m = 2 then 31 else if m = 3 then 59 + L
      else if m = 4 then 90 + L else if m = 5 then 120 + L
      else if m = 6 then 151 + L else if m = 7 then 181 + L
      else if m = 8 then 212 + L else if m = 9 then 243 + L
      else if m = 10 then 273 + L else if m = 11 then 304 + L
      else 334 + L) :
    dayOfDoy (D + (d - 1)) L = d := by
  rw [dayOfDoy.eq_def]
  omega


set_option maxHeartbeats 1000000 in
theorem civil_core (y m d L D a b c e n : Int)
    (hL : L = 0 ∨ L = 1)
    (hLe : L = 1 ↔ (e = 3 ∧ (c ≠ 24 ∨ b = 3)))
    (hbr : 0 ≤ b ∧ b ≤ 3) (hcr : 0 ≤ c ∧ c ≤ 24) (her : 0 ≤ e ∧ e ≤ 3)
    (hdecomp : y - 1 = 400 * a + 100 * b + 4 * c + e)
    (hdoyB : 0 ≤ D + (d - 1) ∧ D + (d - 1) ≤ 364 + L)
    (hmd365 : D + (d - 1) = 365 → m = 12 ∧ d = 31 ∧ L = 1)
    (hz : n = 146097 * a + 36524 * b + 1461 * c + 365 * e + (D + (d - 1))) :
    ((if n % 146097 % 36524 % 1461 / 365 = 4 ∨ n % 146097 / 36524 = 4 then
        400 * (n / 146097) + 100 * (n % 146097 / 36524)
          + 4 * (n % 146097 % 36524 / 1461) + n % 146097 % 36524 % 1461 / 365
      else
        400 * (n / 146097) + 100 * (n % 146097 / 36524)
          + 4 * (n % 146097 % 36524 / 1461) + n % 146097 % 36524 % 1461 / 365 + 1) = y)
    ∧ (¬(n % 146097 % 36524 % 1461 / 365 = 4 ∨ n % 146097 / 36524 = 4) →
        n % 146097 % 36524 % 1461 % 365 = D + (d - 1))
    ∧ ((n % 146097 % 36524 % 1461 / 365 = 4 ∨ n % 146097 / 36524 = 4) →
        m = 12 ∧ d = 31) := by
  by_cases h365 : D + (d - 1) = 365
  · obtain ⟨hm12, hd31, hL1⟩ := hmd365 h365
    have he3 : e = 3 ∧ (c ≠ 24 ∨ b = 3) := hLe.mp hL1
    by_cases hc24 : c = 24
    · have hb3 : b = 3 := by clear hdecomp hdoyB hz; omega
      obtain ⟨q1, q2, q3, q4⟩ := layer_extract_leap400 a n (by clear hdecomp; omega)
      refine ⟨?_, ?_, ?_⟩
      · rw [if_pos (Or.inr q2), q1, q2, q3, q4]
        clear hmd365 hLe hdoyB hz
        omega
      · intro hno
        exact absurd (Or.inr q2) hno
      · intro _
        exact ⟨hm12, hd31⟩
    · obtain ⟨q1, q2, q3, q4⟩ := layer_extract_leap4 a b c n (by clear hdecomp; omega)
        (by clear hdecomp; omega) (by clear hdecomp; omega)
      refine ⟨?_, ?_, ?_⟩
      · rw [if_pos (Or.inl q4), q1, q2, q3, q4]
        clear hmd365 hLe hdoyB hz
        omega
      · intro hno
        exact absurd (Or.inl q4) hno
      · intro _
        exact ⟨hm12, hd31⟩
  · obtain ⟨q1, q2, q3, q4, q5⟩ :=
      layer_extract a b c e (D + (d - 1)) L n hbr hcr her hL hdoyB hz
        (by clear hdecomp; omega)
    have hcond : ¬(n % 146097 % 36524 % 1461 / 365 = 4 ∨ n % 146097 / 36524 = 4) := by
      clear hdecomp
      omega
    refine ⟨?_, ?_, ?_⟩
    · rw [if_neg hcond, q1, q2, q3, q4]
      clear hmd365 hLe hdoyB hz
      omega
    · intro _
      exact q5
    · intro hcond2
      exact absurd hcond2 hcond

set_option maxHeartbeats 1000000 in
theorem civil_days_roundtrip (y m d : Int) (hm1 : 1 ≤ m) (hm2 : m ≤ 12)
    (hd1 : 1 ≤ d) (hd2 : d ≤ daysInMonth y m) :
    civil_from_days (days_from_civil y m d) = ⟨y, m, d⟩ := by
  obtain ⟨L, hLdef⟩ : ∃ L, leapDays y = L := ⟨_, rfl⟩
  have hL : L = 0 ∨ L = 1 := hLdef ▸ leapDays_cases y
  have hLiff : L = 1 ↔ ((y - 1) % 4 = 3 ∧ ((y - 1) % 100 ≠ 99 ∨ (y - 1) % 400 = 399)) :=
    hLdef ▸ leapDays_one_iff y
  obtain ⟨D, hDdef⟩ : ∃ D, daysBeforeMonth L m = D := ⟨_, rfl⟩
  have hD : D = if m = 1 then 0 else if m = 2 then 31 else if m = 3 then 59 + L
      else if m = 4 then 90 + L else if m = 5 then 120 + L
      else if m = 6 then 151 + L else if m = 7 then 181 + L
      else if m = 8 then 212 + L else if m = 9 then 243 + L
      else if m = 10 then 273 + L else if m = 11 then 304 + L
      else 334 + L := by
    rw [← hDdef, daysBeforeMonth.eq_def]
  rw [daysInMonth.eq_def, daysInMonthL.eq_def, hLdef] at hd2
  obtain ⟨a, ha⟩ : ∃ a, (y - 1) / 400 = a := ⟨_, rfl⟩
  obtain ⟨b, hb⟩ : ∃ b, (y - 1) % 400 / 100 = b := ⟨_, rfl⟩
  obtain ⟨c, hc⟩ : ∃ c, (y - 1) % 100 / 4 = c := ⟨_, rfl⟩
  obtain ⟨e, he⟩ : ∃ e, (y - 1) % 4 = e := ⟨_, rfl⟩
  have hbr : 0 ≤ b ∧ b ≤ 3 := by omega
  have hcr : 0 ≤ c ∧ c ≤ 24 := by omega
  have her : 0 ≤ e ∧ e ≤ 3 := by omega
  have hLe : L = 1 ↔ (e = 3 ∧ (c ≠ 24 ∨ b = 3)) := by rw [hLiff]; omega
  have hdecomp : y - 1 = 400 * a + 100 * b + 4 * c + e := by omega
  have hmd365 : D + (d - 1) = 365 → m = 12 ∧ d = 31 ∧ L = 1 :=
    doy365_forces L m d D hL hm1 hm2 hd1 hd2 hD
  have hmofd : monthOfDoy (D + (d - 1)) L = m :=
    monthOfDoy_dbm L m d D hL hm1 hm2 hd1 hd2 hD
  have hdofd : dayOfDoy (D + (d - 1)) L = d :=
    dayOfDoy_dbm L m d D hL hm1 hm2 hd1 hd2 hD
  have hdoyB : 0 ≤ D + (d - 1) ∧ D + (d - 1) ≤ 364 + L := by omega
  clear hd2 hD hLiff
  obtain ⟨n, hn⟩ : ∃ n, days_from_civil y m d + 719162 = n := ⟨_, rfl⟩
  have hz : n = 146097 * a + 36524 * b + 1461 * c + 365 * e + (D + (d - 1)) := by
    rw [← hn, days_from_civil.eq_def, hLdef, hDdef]
    clear hdoyB hmd365 hmofd hdofd hLe
    omega
  obtain ⟨hyear0, hdoy0, hcor0⟩ :=
    civil_core y m d L D a b c e n hL hLe hbr hcr her hdecomp hdoyB hmd365 hz
  have hyear : yearFromDays (days_from_civil y m d) = y := by
    rw [yearFromDays.eq_def, hn]
    exact hyear0
  by_cases hcond : (n % 146097 % 36524 % 1461 / 365 = 4 ∨ n % 146097 / 36524 = 4)
  · obtain ⟨hm12, hd31⟩ := hcor0 hcond
    have hmonth : monthFromDays (days_from_civil y m d) = m := by
      rw [monthFromDays.eq_def, hn, if_pos hcond, hm12]
    have hday : dayFromDays (days_from_civil y m d) = d := by
      rw [dayFromDays.eq_def, hn, if_pos hcond, hd31]
    rw [civil_from_days.eq_def, hyear, hmonth, hday]
  · have hdoyv : doyFromDays (days_from_civil y m d) = D + (d - 1) := by
      rw [doyFromDays.eq_def, hn]
      exact hdoy0 hcond
    have hmonth : monthFromDays (days_from_civil y m d) = m := by
      rw [monthFromDays.eq_def, hn, if_neg hcond, hdoyv, hyear, hLdef]
      exact hmofd
    have hday : dayFromDays (days_from_civil y m d) = d := by
      rw [dayFromDays.eq_def, hn, if_neg hcond, hdoyv, hyear, hLdef]
      exact hdofd
    rw [civil_from_days.eq_def, hyear, hmonth, hday]

/-- The first day of the next month is the successor of the last day of the
current month (the identity behind the planner's "one day before the first
of the month after next" computation). -/
theorem days_next_month_first (y m : Int) (hm1 : 1 ≤ m) (hm2 : m ≤ 12) :
    days_from_civil (nextY y m) (nextM m) 1 =
      days_from_civil y m (daysInMonth y m) + 1 := by
  obtain ⟨L, hLdef⟩ : ∃ L, leapDays y = L := ⟨_, rfl⟩
  have hL : L = 0 ∨ L = 1 := hLdef ▸ leapDays_cases y
  have hLiff : L = 1 ↔ ((y - 1) % 4 = 3 ∧ ((y - 1) % 100 ≠ 99 ∨ (y - 1) % 400 = 399)) :=
    hLdef ▸ leapDays_one_iff y
  obtain ⟨L2, hLdef2⟩ : ∃ L2, leapDays (y + 1) = L2 := ⟨_, rfl⟩
  by_cases h12 : m = 12
  · subst h12
    rw [nextY.eq_def, nextM.eq_def, if_pos rfl, if_pos rfl]
    have hy4 : (y + 1 - 1) / 4 = (y - 1) / 4 + (if (y - 1) % 4 = 3 then 1 else 0) := by
      omega
    have hy100 : (y + 1 - 1) / 100 = (y - 1) / 100 + (if (y - 1) % 100 = 99 then 1 else 0) := by
      omega
    have hy400 : (y + 1 - 1) / 400 = (y - 1) / 400 + (if (y - 1) % 400 = 399 then 1 else 0) := by
      omega
    have hsum : (y + 1 - 1) / 4 - (y - 1) / 4 - ((y + 1 - 1) / 100 - (y - 1) / 100)
        + ((y + 1 - 1) / 400 - (y - 1) / 400) = L := by
      rw [hy4, hy100, hy400]
      clear hy4 hy100 hy400 hLdef hLdef2
      omega
    clear hy4 hy100 hy400 hLiff hL
    norm_num [days_from_civil.eq_def, daysInMonth.eq_def, daysInMonthL.eq_def,
      daysBeforeMonth.eq_def, hLdef, hLdef2]
    omega
  · rw [nextY.eq_def, nextM.eq_def, if_neg h12, if_neg h12]
    have hm : m = 1 ∨ m = 2 ∨ m = 3 ∨ m = 4 ∨ m = 5 ∨ m = 6 ∨ m = 7 ∨ m = 8 ∨
        m = 9 ∨ m = 10 ∨ m = 11 := by omega
    rcases hm with rfl | rfl | rfl | rfl | rfl | rfl | rfl | rfl | rfl | rfl | rfl <;>
      norm_num [days_from_civil.eq_def, daysInMonth.eq_def, daysInMonthL.eq_def,
        daysBeforeMonth.eq_def, hLdef] <;>
      omega


theorem daysInMonth_bounds (y m : Int) :
    28 ≤ daysInMonth y m ∧ daysInMonth y m ≤ 31 := by
  rw [daysInMonth.eq_def, daysInMonthL.eq_def, leapDays.eq_def]
  omega

theorem nextM_bounds (m : Int) (hm1 : 1 ≤ m) (hm2 : m ≤ 12) :
    1 ≤ nextM m ∧ nextM m ≤ 12 := by
  rw [nextM.eq_def]
  omega

/-- The heart of the planner: for a last date `y-m-d` (parsed from `s`)
with `100 ≤ y`, the computed window is the first and last day of the
calendar month following `y-m`. -/
theorem getNextMonthInterval_eq (s : String) (y m d : Int)
    (hm1 : 1 ≤ m) (hm2 : m ≤ 12) (hd1 : 1 ≤ d) (hd2 : d ≤ daysInMonth y m)
    (hy : 100 ≤ y)
    (hp : parseCustomDate s = some (days_from_civil y m d * msPerDay)) :
    getNextMonthInterval s =
      some ⟨⟨nextY y m, nextM m, 1⟩,
            ⟨nextY y m, nextM m, daysInMonth (nextY y m) (nextM m)⟩⟩ := by
  have hms : (msPerDay : Int) ≠ 0 := by rw [msPerDay.eq_def]; omega
  have hdiv1 : days_from_civil y m d * msPerDay / msPerDay = days_from_civil y m d :=
    Int.mul_ediv_cancel _ hms
  have hc1 : civil_from_days (days_from_civil y m d * msPerDay / msPerDay) =
      ⟨y, m, d⟩ := by
    rw [hdiv1]
    exact civil_days_roundtrip y m d hm1 hm2 hd1 hd2
  have hmk1 : jsMakeDateMs y (m - 1 + 1) 1 =
      days_from_civil (nextY y m) (nextM m) 1 * msPerDay := by
    simp only [jsMakeDateMs]
    rw [if_neg (by omega)]
    have h1 : y + (m - 1 + 1) / 12 = nextY y m := by rw [nextY.eq_def]; omega
    have h2 : (m - 1 + 1) % 12 + 1 = nextM m := by rw [nextM.eq_def]; omega
    rw [h1, h2]
  have hY2 : 100 ≤ nextY y m := by rw [nextY.eq_def]; omega
  have hM2 := nextM_bounds m hm1 hm2
  have hdim2 := daysInMonth_bounds (nextY y m) (nextM m)
  have hdiv2 : days_from_civil (nextY y m) (nextM m) 1 * msPerDay / msPerDay =
      days_from_civil (nextY y m) (nextM m) 1 :=
    Int.mul_ediv_cancel _ hms
  have hc2 : civil_from_days
      (days_from_civil (nextY y m) (nextM m) 1 * msPerDay / msPerDay) =
      ⟨nextY y m, nextM m, 1⟩ := by
    rw [hdiv2]
    exact civil_days_roundtrip _ _ 1 hM2.1 hM2.2 le_rfl (by omega)
  have hmk2 : jsMakeDateMs (nextY y m) (nextM m - 1 + 1) 1 =
      days_from_civil (nextY (nextY y m) (nextM m)) (nextM (nextM m)) 1 *
        msPerDay := by
    simp only [jsMakeDateMs]
    rw [if_neg (by omega)]
    have h1 : nextY y m + (nextM m - 1 + 1) / 12 = nextY (nextY y m) (nextM m) := by
      rw [nextY.eq_def (nextY y m)]
      omega
    have h2 : (nextM m - 1 + 1) % 12 + 1 = nextM (nextM m) := by
      rw [nextM.eq_def (nextM m), nextM.eq_def m]
      omega
    rw [h1, h2]
  have hend : (days_from_civil (nextY (nextY y m) (nextM m)) (nextM (nextM m)) 1 *
      msPerDay - 1) / msPerDay =
      days_from_civil (nextY y m) (nextM m)
        (daysInMonth (nextY y m) (nextM m)) := by
    have hstep := days_next_month_first (nextY y m) (nextM m) hM2.1 hM2.2
    rw [hstep, msPerDay.eq_def]
    omega
  have hc3 : civil_from_days
      ((days_from_civil (nextY (nextY y m) (nextM m)) (nextM (nextM m)) 1 *
        msPerDay - 1) / msPerDay) =
      ⟨nextY y m, nextM m, daysInMonth (nextY y m) (nextM m)⟩ := by
    rw [hend]
    exact civil_days_roundtrip _ _ _ hM2.1 hM2.2 (by omega) le_rfl
  simp only [getNextMonthInterval, hp, formatDate]
  rw [hc1]
  simp only
  rw [hmk1, hc2]
  simp only
  rw [hmk2]
  rw [hc3]

/-- Case analysis of one run: the four execution paths of
`fetchAllDataIncremental` and the result each produces. -/
theorem run_cases (store : StoreFile) (nowMs : Int)
    (fetchF : YMD → YMD → HttpOutcome) :
    (∃ e, computeWindow (readExistingData store) (formatDate nowMs) = .error e ∧
      fetchAllDataIncremental store nowMs fetchF = ⟨none, none, 1, store⟩) ∨
    (∃ w, computeWindow (readExistingData store) (formatDate nowMs) = .ok w ∧
      ((∃ err, fetchData (fetchF w.startDate w.endDate) = .error err) ∧
        fetchAllDataIncremental store nowMs fetchF = ⟨some w, none, 1, store⟩ ∨
       ∃ newData, fetchData (fetchF w.startDate w.endDate) = .ok newData ∧
        (filterDuplicates (readExistingData store) newData = [] ∧
          fetchAllDataIncremental store nowMs fetchF = ⟨some w, none, 0, store⟩ ∨
         filterDuplicates (readExistingData store) newData ≠ [] ∧
          fetchAllDataIncremental store nowMs fetchF =
            ⟨some w,
             some (sortByDate (readExistingData store ++
               filterDuplicates (readExistingData store) newData)),
             0,
             .jsonArray (sortByDate (readExistingData store ++
               filterDuplicates (readExistingData store) newData))⟩))) := by
  cases hcw : computeWindow (readExistingData store) (formatDate nowMs) with
  | error e =>
    left
    exact ⟨e, rfl, by simp only [fetchAllDataIncremental, hcw]⟩
  | ok w =>
    right
    refine ⟨w, rfl, ?_⟩
    cases hfd : fetchData (fetchF w.startDate w.endDate) with
    | error err =>
      left
      exact ⟨⟨err, rfl⟩, by simp only [fetchAllDataIncremental, hcw, hfd]⟩
    | ok newData =>
      right
      refine ⟨newData, rfl, ?_⟩
      by_cases hlen : (filterDuplicates (readExistingData store) newData).length = 0
      · left
        refine ⟨List.length_eq_zero.mp hlen, ?_⟩
        simp only [fetchAllDataIncremental, hcw, hfd]
        rw [if_pos hlen]
      · right
        refine ⟨fun hc => hlen (by rw [hc]; rfl), ?_⟩
        simp only [fetchAllDataIncremental, hcw, hfd]
        rw [if_neg hlen]

theorem sortByDate_length (l : List Record) : (sortByDate l).length = l.length :=
  (List.perm_insertionSort dateLe l).length_eq

theorem mem_filterDuplicates_iff (existing incoming : List Record) (x : Record) :
    x ∈ filterDuplicates existing incoming ↔
      x ∈ incoming ∧ ∀ e ∈ existing,
        ¬(e.sample_number = x.sample_number ∧
          e.extraction_date = x.extraction_date) := by
  simp [filterDuplicates, List.mem_filter, List.any_eq_true, not_and]

/-- C9: `filterDuplicates(existing, incoming)` returns exactly those incoming
records whose `(sample_number, extraction_date)` pair matches no record in
`existing`, preserving their relative order (the result is a sublist of the
batch); incoming records are never compared against each other, so a kept
record keeps its full multiplicity — if the batch contains two records with
the same identity key absent from `existing`, both survive. -/
theorem C9_filterDuplicates_characterization (existing incoming : List Record) :
    (filterDuplicates existing incoming).Sublist incoming ∧
    (∀ x, x ∈ filterDuplicates existing incoming ↔
      x ∈ incoming ∧ ∀ e ∈ existing,
        ¬(e.sample_number = x.sample_number ∧
          e.extraction_date = x.extraction_date)) ∧
    (∀ x, x ∈ filterDuplicates existing incoming →
      (filterDuplicates existing incoming).count x = incoming.count x) := by
  refine ⟨List.filter_sublist _, mem_filterDuplicates_iff existing incoming, ?_⟩
  · intro x hx
    have hpx := (List.mem_filter.mp hx).2
    exact List.count_filter hpx

/-- C1: merging a dataset `D` with an incoming batch containing a record `r`
whose `(sample_number, extraction_date)` pair equals that of some record
already in `D` (exact string equality) discards `r` — regardless of `r`'s
position in the batch — and yields exactly `|D|` records plus the
non-duplicate incoming records; in particular `merge(D, [r])` keeps exactly
`|D|` records. -/
theorem C1_merge_discards_duplicates (D incoming : List Record) (r : Record)
    (hr : r ∈ incoming)
    (hdup : ∃ e ∈ D, e.sample_number = r.sample_number ∧
      e.extraction_date = r.extraction_date) :
    filterDuplicates D [r] = [] ∧
    r ∉ filterDuplicates D incoming ∧
    (sortByDate (D ++ filterDuplicates D incoming)).length =
      D.length + (filterDuplicates D incoming).length ∧
    (sortByDate (D ++ filterDuplicates D [r])).length = D.length := by
  obtain ⟨e, he, hk1, hk2⟩ := hdup
  have hpred : (D.any fun ex => ex.sample_number == r.sample_number &&
      ex.extraction_date == r.extraction_date) = true := by
    rw [List.any_eq_true]
    exact ⟨e, he, by rw [Bool.and_eq_true, beq_iff_eq, beq_iff_eq]; exact ⟨hk1, hk2⟩⟩
  have hsingle : filterDuplicates D [r] = [] := by
    simp [filterDuplicates, hpred]
  refine ⟨hsingle, ?_, ?_, ?_⟩
  · intro hmem
    have hthis := (List.mem_filter.mp hmem).2
    rw [hpred] at hthis
    exact Bool.noConfusion hthis
  · rw [sortByDate_length, List.length_append]
  · rw [hsingle, sortByDate_length, List.length_append, List.length_nil]
    omega

/-- C1 witness. -/
theorem C1_merge_discards_duplicates_witness :
    filterDuplicates [⟨"1", "01.03.2022", "a"⟩] [⟨"1", "01.03.2022", "b"⟩] = [] ∧
    ⟨"1", "01.03.2022", "b"⟩ ∉
      filterDuplicates [⟨"1", "01.03.2022", "a"⟩] [⟨"1", "01.03.2022", "b"⟩] ∧
    (sortByDate ([⟨"1", "01.03.2022", "a"⟩] ++
      filterDuplicates [⟨"1", "01.03.2022", "a"⟩] [⟨"1", "01.03.2022", "b"⟩])).length =
      ([⟨"1", "01.03.2022", "a"⟩] : List Record).length +
        (filterDuplicates [⟨"1", "01.03.2022", "a"⟩] [⟨"1", "01.03.2022", "b"⟩]).length ∧
    (sortByDate ([⟨"1", "01.03.2022", "a"⟩] ++
      filterDuplicates [⟨"1", "01.03.2022", "a"⟩] [⟨"1", "01.03.2022", "b"⟩])).length =
      ([⟨"1", "01.03.2022", "a"⟩] : List Record).length :=
  C1_merge_discards_duplicates [⟨"1", "01.03.2022", "a"⟩] [⟨"1", "01.03.2022", "b"⟩]
    ⟨"1", "01.03.2022", "b"⟩ (by decide)
    ⟨⟨"1", "01.03.2022", "a"⟩, by decide, rfl, rfl⟩

/-- C7: for every store state that is not a readable JSON array — file
absent or unreadable, content that is not valid JSON, or valid JSON that is
not an array — `readExistingData` returns the empty dataset instead of
raising to its caller, and the run proceeds as the first-run bootstrap
case, requesting the fixed window 2022-02-01 … 2022-02-28 rather than
failing. -/
theorem C7_bad_store_bootstraps (store : StoreFile)
    (h : ∀ d, store ≠ StoreFile.jsonArray d)
    (nowMs : Int) (fetchF : YMD → YMD → HttpOutcome) :
    readExistingData store = [] ∧
    (fetchAllDataIncremental store nowMs fetchF).fetched =
      some ⟨⟨2022, 2, 1⟩, ⟨2022, 2, 28⟩⟩ := by
  have hread : readExistingData store = [] := by
    cases store
    · rfl
    · rfl
    · rfl
    · exact absurd rfl (h _)
  refine ⟨hread, ?_⟩
  have hwin : computeWindow (readExistingData store) (formatDate nowMs) =
      .ok ⟨⟨2022, 2, 1⟩, ⟨2022, 2, 28⟩⟩ := by
    rw [hread]; rfl
  simp only [fetchAllDataIncremental]
  rw [hwin]
  cases hfd : fetchData (fetchF ⟨2022, 2, 1⟩ ⟨2022, 2, 28⟩) with
  | error e => simp [hfd]
  | ok newData =>
    simp only [hfd]
    split <;> rfl

/-- C7 witness. -/
theorem C7_bad_store_bootstraps_witness :
    readExistingData .notJson = [] ∧
    (fetchAllDataIncremental .notJson 0 (fun _ _ => .transportError)).fetched =
      some ⟨⟨2022, 2, 1⟩, ⟨2022, 2, 28⟩⟩ :=
  C7_bad_store_bootstraps .notJson (fun d h => StoreFile.noConfusion h) 0 _

/-- C8: the fetch step raises exactly when the transport call fails, the
response status is not successful, or the response body lacks the top-level
`body` envelope; whenever a run issues a fetch, it exits 1 exactly when that
fetch raised, and exits 0 on every successful completion, including the
no-op "nothing new" case; the exit code is always 0 or 1. -/
theorem C8_exit_codes (o : HttpOutcome) (store : StoreFile) (nowMs : Int)
    (fetchF : YMD → YMD → HttpOutcome) (w : FetchWindow)
    (hw : (fetchAllDataIncremental store nowMs fetchF).fetched = some w) :
    ((∃ err, fetchData o = .error err) ↔
      (o = .transportError ∨ (∃ b, o = .response false b) ∨
        o = .response true none)) ∧
    ((fetchAllDataIncremental store nowMs fetchF).exitCode = 0 ∨
      (fetchAllDataIncremental store nowMs fetchF).exitCode = 1) ∧
    ((fetchAllDataIncremental store nowMs fetchF).exitCode = 1 ↔
      ∃ err, fetchData (fetchF w.startDate w.endDate) = .error err) := by
  refine ⟨?_, ?_, ?_⟩
  · cases o with
    | transportError => simp [fetchData]
    | response ok body =>
      cases ok <;> cases body <;> simp [fetchData]
  · rcases run_cases store nowMs fetchF with
      ⟨e, hcw, hrun⟩ | ⟨w', hcw, ⟨herr, hrun⟩ | ⟨nd, hnd, ⟨hem, hrun⟩ | ⟨hem, hrun⟩⟩⟩ <;>
      rw [hrun] <;> simp
  · rcases run_cases store nowMs fetchF with
      ⟨e, hcw, hrun⟩ | ⟨w', hcw, ⟨herr, hrun⟩ | ⟨nd, hnd, ⟨hem, hrun⟩ | ⟨hem, hrun⟩⟩⟩ <;>
      rw [hrun] at hw ⊢ <;> simp at hw ⊢
    · subst hw; exact herr
    · subst hw
      intro err herr2
      rw [hnd] at herr2
      exact Except.noConfusion herr2
    · subst hw
      intro err herr2
      rw [hnd] at herr2
      exact Except.noConfusion herr2

/-- C8 witness. -/
theorem C8_exit_codes_witness :
    ((∃ err, fetchData .transportError = .error err) ↔
      (HttpOutcome.transportError = .transportError ∨
        (∃ b, HttpOutcome.transportError = .response false b) ∨
        HttpOutcome.transportError = .response true none)) ∧
    ((fetchAllDataIncremental .unreadable 0 (fun _ _ => .transportError)).exitCode = 0 ∨
      (fetchAllDataIncremental .unreadable 0 (fun _ _ => .transportError)).exitCode = 1) ∧
    ((fetchAllDataIncremental .unreadable 0 (fun _ _ => .transportError)).exitCode = 1 ↔
      ∃ err, fetchData (HttpOutcome.transportError) = .error err) :=
  C8_exit_codes .transportError .unreadable 0 (fun _ _ => .transportError)
    ⟨⟨2022, 2, 1⟩, ⟨2022, 2, 28⟩⟩ (by decide)

/-- C6: for a non-empty dataset `D`, a run whose deduplicated incoming batch
is empty (an empty fetch result, or one whose every record is already
present) performs no write-back at all: the store keeps the identical
sequence `D`, `written` is `none`, and the run still exits 0; and
`filterDuplicates D [] = []`. -/
theorem C6_noop_merge (D newData : List Record) (hD : D ≠ [])
    (nowMs : Int) (fetchF : YMD → YMD → HttpOutcome) (w : FetchWindow)
    (hfetched : (fetchAllDataIncremental (.jsonArray D) nowMs fetchF).fetched = some w)
    (hok : fetchData (fetchF w.startDate w.endDate) = .ok newData)
    (hempty : filterDuplicates D newData = []) :
    filterDuplicates D ([] : List Record) = [] ∧
    (fetchAllDataIncremental (.jsonArray D) nowMs fetchF).written = none ∧
    (fetchAllDataIncremental (.jsonArray D) nowMs fetchF).finalStore = .jsonArray D ∧
    (fetchAllDataIncremental (.jsonArray D) nowMs fetchF).exitCode = 0 := by
  refine ⟨rfl, ?_⟩
  have hread : readExistingData (StoreFile.jsonArray D) = D := rfl
  rcases run_cases (.jsonArray D) nowMs fetchF with
    ⟨e, hcw, hrun⟩ | ⟨w', hcw, ⟨herr, hrun⟩ | ⟨nd, hnd, ⟨hem, hrun⟩ | ⟨hem, hrun⟩⟩⟩ <;>
    rw [hrun] at hfetched ⊢ <;> simp at hfetched ⊢
  · subst hfetched
    obtain ⟨err, herr⟩ := herr
    rw [hok] at herr
    exact Except.noConfusion herr
  · subst hfetched
    rw [hok] at hnd
    have hnde : newData = nd := Except.ok.inj hnd
    rw [hread] at hem
    exact absurd (hnde ▸ hempty) hem

/-- C6 witness. -/
theorem C6_noop_merge_witness :
    filterDuplicates [⟨"1", "01.03.2022", "a"⟩] ([] : List Record) = [] ∧
    (fetchAllDataIncremental (.jsonArray [⟨"1", "01.03.2022", "a"⟩]) 0
      (fun _ _ => .response true (some []))).written = none ∧
    (fetchAllDataIncremental (.jsonArray [⟨"1", "01.03.2022", "a"⟩]) 0
      (fun _ _ => .response true (some []))).finalStore =
        .jsonArray [⟨"1", "01.03.2022", "a"⟩] ∧
    (fetchAllDataIncremental (.jsonArray [⟨"1", "01.03.2022", "a"⟩]) 0
      (fun _ _ => .response true (some []))).exitCode = 0 :=
  C6_noop_merge [⟨"1", "01.03.2022", "a"⟩] [] (by decide) 0
    (fun _ _ => .response true (some []))
    ⟨⟨2022, 4, 1⟩, ⟨1970, 1, 1⟩⟩ (by decide) rfl (by decide)

/-- C2 counterexample: from the bootstrap state, a fetched batch that
contains the same identity key twice is written back verbatim, so the
persisted dataset violates key distinctness after the write. -/
theorem C2_counterexample_intra_batch_duplicate :
    (fetchAllDataIncremental .unreadable 0
      (fun _ _ => .response true
        (some [⟨"1", "05.03.2022", "x"⟩, ⟨"1", "05.03.2022", "x"⟩]))).written =
      some [⟨"1", "05.03.2022", "x"⟩, ⟨"1", "05.03.2022", "x"⟩] ∧
    ¬ KeysDistinct [⟨"1", "05.03.2022", "x"⟩, ⟨"1", "05.03.2022", "x"⟩] := by
  constructor
  · decide
  · decide

/-- C2 (amended): provided the existing dataset has pairwise-distinct
`(sample_number, extraction_date)` keys and every fetched batch has
pairwise-distinct keys, the dataset written back by a run is sorted
ascending by parsed `extraction_date` and has pairwise-distinct keys.
(Unconditionally, the claim is false: an intra-batch duplicate key survives
the merge — see the counterexample.) -/
theorem C2_write_invariant (store : StoreFile) (nowMs : Int)
    (fetchF : YMD → YMD → HttpOutcome) (written : List Record)
    (hex : KeysDistinct (readExistingData store))
    (hfetch : ∀ s e recs, fetchData (fetchF s e) = .ok recs → KeysDistinct recs)
    (hw : (fetchAllDataIncremental store nowMs fetchF).written = some written) :
    written.Pairwise dateLe ∧ KeysDistinct written := by
  rcases run_cases store nowMs fetchF with
    ⟨e, hcw, hrun⟩ | ⟨w, hcw, ⟨herr, hrun⟩ | ⟨nd, hnd, ⟨hem, hrun⟩ | ⟨hem, hrun⟩⟩⟩ <;>
    rw [hrun] at hw <;> simp at hw
  subst hw
  constructor
  · exact List.sorted_insertionSort dateLe _
  · have hperm : List.Perm
        (sortByDate (readExistingData store ++
          filterDuplicates (readExistingData store) nd))
        (readExistingData store ++ filterDuplicates (readExistingData store) nd) :=
      List.perm_insertionSort dateLe _
    have hsymm : ∀ {x y : Record},
        ¬(x.sample_number = y.sample_number ∧ x.extraction_date = y.extraction_date) →
        ¬(y.sample_number = x.sample_number ∧ y.extraction_date = x.extraction_date) :=
      fun hxy hyx => hxy ⟨hyx.1.symm, hyx.2.symm⟩
    rw [KeysDistinct, List.Perm.pairwise_iff hsymm hperm, List.pairwise_append]
    refine ⟨hex, ?_, ?_⟩
    · exact List.Pairwise.sublist (List.filter_sublist _)
        (hfetch w.startDate w.endDate nd hnd)
    · intro a ha b hb
      have hbmem := (mem_filterDuplicates_iff _ _ b).mp hb
      exact hbmem.2 a ha

/-- C2 witness. -/
theorem C2_write_invariant_witness :
    [(⟨"1", "05.03.2022", "x"⟩ : Record), ⟨"2", "06.03.2022", "y"⟩].Pairwise dateLe ∧
    KeysDistinct [⟨"1", "05.03.2022", "x"⟩, ⟨"2", "06.03.2022", "y"⟩] :=
  C2_write_invariant .unreadable 0
    (fun _ _ => .response true (some [⟨"1", "05.03.2022", "x"⟩, ⟨"2", "06.03.2022", "y"⟩]))
    [⟨"1", "05.03.2022", "x"⟩, ⟨"2", "06.03.2022", "y"⟩]
    (by decide)
    (by
      intro s e recs hr
      have : recs = [⟨"1", "05.03.2022", "x"⟩, ⟨"2", "06.03.2022", "y"⟩] :=
        (Except.ok.inj hr).symm
      rw [this]
      decide)
    (by decide)
/-- C10: none of `findLatestExtractionDate` (which sorts a `slice()` copy),
`filterDuplicates` (which only reads its arguments) and the merge step
(which sorts a freshly `concat`-allocated array) mutates the existing
dataset array it is given: in the array-heap model every previously
allocated reference reads back unchanged, and each operation computes the
same value as its pure counterpart. -/
theorem C10_no_mutation_of_existing (h : JSHeap) (dataRef exist uniq : Nat)
    (hd : dataRef < h.next) (he : exist < h.next) (hu : uniq < h.next) :
    ((findLatestExtractionDateH h dataRef).2.mem dataRef = h.mem dataRef ∧
     (findLatestExtractionDateH h dataRef).1 =
       findLatestExtractionDate (h.mem dataRef)) ∧
    ((jsFilterDuplicates h exist uniq).2.mem exist = h.mem exist ∧
     (jsFilterDuplicates h exist uniq).2.mem uniq = h.mem uniq ∧
     (jsFilterDuplicates h exist uniq).2.mem (jsFilterDuplicates h exist uniq).1 =
       filterDuplicates (h.mem exist) (h.mem uniq)) ∧
    ((mergeStepH h exist uniq).2.mem exist = h.mem exist ∧
     (mergeStepH h exist uniq).2.mem uniq = h.mem uniq ∧
     (mergeStepH h exist uniq).2.mem (mergeStepH h exist uniq).1 =
       sortByDate (h.mem exist ++ h.mem uniq)) := by
  have hdn : dataRef ≠ h.next := Nat.ne_of_lt hd
  have hen : exist ≠ h.next := Nat.ne_of_lt he
  have hun : uniq ≠ h.next := Nat.ne_of_lt hu
  refine ⟨⟨?_, ?_⟩, ⟨?_, ?_, ?_⟩, ⟨?_, ?_, ?_⟩⟩
  · simp only [findLatestExtractionDateH]
    split
    · rfl
    · simp [jsSlice, jsSortInPlace, JSHeap.alloc, hdn]
  · simp only [findLatestExtractionDateH, findLatestExtractionDate]
    split
    · rfl
    · simp [jsSlice, jsSortInPlace, JSHeap.alloc]
  · simp [jsFilterDuplicates, JSHeap.alloc, hen]
  · simp [jsFilterDuplicates, JSHeap.alloc, hun]
  · simp [jsFilterDuplicates, JSHeap.alloc]
  · simp [mergeStepH, jsConcat, jsSortInPlace, JSHeap.alloc, hen]
  · simp [mergeStepH, jsConcat, jsSortInPlace, JSHeap.alloc, hun]
  · simp [mergeStepH, jsConcat, jsSortInPlace, JSHeap.alloc, sortByDate]

/-- C10 witness. -/
theorem C10_no_mutation_of_existing_witness :
    (((findLatestExtractionDateH ⟨fun _ => [⟨"1", "05.03.2022", "x"⟩], 3⟩ 0).2.mem 0 =
        (⟨fun _ => [⟨"1", "05.03.2022", "x"⟩], 3⟩ : JSHeap).mem 0 ∧
      (findLatestExtractionDateH ⟨fun _ => [⟨"1", "05.03.2022", "x"⟩], 3⟩ 0).1 =
        findLatestExtractionDate ((⟨fun _ => [⟨"1", "05.03.2022", "x"⟩], 3⟩ : JSHeap).mem 0)) ∧
     ((jsFilterDuplicates ⟨fun _ => [⟨"1", "05.03.2022", "x"⟩], 3⟩ 1 2).2.mem 1 =
        (⟨fun _ => [⟨"1", "05.03.2022", "x"⟩], 3⟩ : JSHeap).mem 1 ∧
      (jsFilterDuplicates ⟨fun _ => [⟨"1", "05.03.2022", "x"⟩], 3⟩ 1 2).2.mem 2 =
        (⟨fun _ => [⟨"1", "05.03.2022", "x"⟩], 3⟩ : JSHeap).mem 2 ∧
      (jsFilterDuplicates ⟨fun _ => [⟨"1", "05.03.2022", "x"⟩], 3⟩ 1 2).2.mem
          (jsFilterDuplicates ⟨fun _ => [⟨"1", "05.03.2022", "x"⟩], 3⟩ 1 2).1 =
        filterDuplicates ((⟨fun _ => [⟨"1", "05.03.2022", "x"⟩], 3⟩ : JSHeap).mem 1)
          ((⟨fun _ => [⟨"1", "05.03.2022", "x"⟩], 3⟩ : JSHeap).mem 2)) ∧
     ((mergeStepH ⟨fun _ => [⟨"1", "05.03.2022", "x"⟩], 3⟩ 1 2).2.mem 1 =
        (⟨fun _ => [⟨"1", "05.03.2022", "x"⟩], 3⟩ : JSHeap).mem 1 ∧
      (mergeStepH ⟨fun _ => [⟨"1", "05.03.2022", "x"⟩], 3⟩ 1 2).2.mem 2 =
        (⟨fun _ => [⟨"1", "05.03.2022", "x"⟩], 3⟩ : JSHeap).mem 2 ∧
      (mergeStepH ⟨fun _ => [⟨"1", "05.03.2022", "x"⟩], 3⟩ 1 2).2.mem
          (mergeStepH ⟨fun _ => [⟨"1", "05.03.2022", "x"⟩], 3⟩ 1 2).1 =
        sortByDate ((⟨fun _ => [⟨"1", "05.03.2022", "x"⟩], 3⟩ : JSHeap).mem 1 ++
          (⟨fun _ => [⟨"1", "05.03.2022", "x"⟩], 3⟩ : JSHeap).mem 2))) :=
  C10_no_mutation_of_existing ⟨fun _ => [⟨"1", "05.03.2022", "x"⟩], 3⟩ 0 1 2
    (by decide) (by decide) (by decide)

/-- C5 (amended): for every last extraction date `y-m-d` whose year is at
least 100 (the JavaScript `Date` constructor remaps year arguments 0–99 to
1900–1999, see the counterexample), the computed window starts on the first
day of the calendar month following `y-m` and ends on the last day of that
same month — correct for all month lengths and leap years — and that last
day is one day before the first day of the month after the start's month. -/
theorem C5_next_month_window (s : String) (y m d : Int)
    (hm1 : 1 ≤ m) (hm2 : m ≤ 12) (hd1 : 1 ≤ d) (hd2 : d ≤ daysInMonth y m)
    (hy : 100 ≤ y)
    (hp : parseCustomDate s = some (days_from_civil y m d * msPerDay)) :
    getNextMonthInterval s =
      some ⟨⟨nextY y m, nextM m, 1⟩,
            ⟨nextY y m, nextM m, daysInMonth (nextY y m) (nextM m)⟩⟩ ∧
    days_from_civil (nextY y m) (nextM m) (daysInMonth (nextY y m) (nextM m)) =
      days_from_civil (nextY (nextY y m) (nextM m)) (nextM (nextM m)) 1 - 1 := by
  have hM2 := nextM_bounds m hm1 hm2
  refine ⟨getNextMonthInterval_eq s y m d hm1 hm2 hd1 hd2 hy hp, ?_⟩
  have := days_next_month_first (nextY y m) (nextM m) hM2.1 hM2.2
  omega

/-- C5 witness. -/
theorem C5_next_month_window_witness :
    (getNextMonthInterval "15.03.2023" =
      some ⟨⟨nextY 2023 3, nextM 3, 1⟩,
            ⟨nextY 2023 3, nextM 3, daysInMonth (nextY 2023 3) (nextM 3)⟩⟩ ∧
    days_from_civil (nextY 2023 3) (nextM 3) (daysInMonth (nextY 2023 3) (nextM 3)) =
      days_from_civil (nextY (nextY 2023 3) (nextM 3)) (nextM (nextM 3)) 1 - 1) :=
  C5_next_month_window "15.03.2023" 2023 3 15 (by decide) (by decide) (by decide)
    (by decide) (by decide) (by decide)

/-- C5 counterexample: for the last extraction date `15.03.0050` the code
computes the window for April 1950, not April 0050, because
`new Date(50, …)` remaps the year to 1950. -/
theorem C5_counterexample_two_digit_year :
    getNextMonthInterval "15.03.0050" = some ⟨⟨1950, 4, 1⟩, ⟨1950, 4, 30⟩⟩ ∧
    getNextMonthInterval "15.03.0050" ≠ some ⟨⟨50, 4, 1⟩, ⟨50, 4, 30⟩⟩ := by
  constructor
  · decide
  · decide

/-- C3: for a store whose latest extraction date is `15.03.2023` and today
`10.04.2023`, the computed window is `2023-04-01 … 2023-04-10` (the month
end `2023-04-30` is clipped to today), both at the planner level and as the
window actually fetched by the run; and in general, whenever the computed
month end is later than today (in the string order the code uses), the end
is replaced by today. -/
theorem C3_window_clipped_to_today :
    getNextMonthInterval "15.03.2023" = some ⟨⟨2023, 4, 1⟩, ⟨2023, 4, 30⟩⟩ ∧
    computeWindow [⟨"123", "15.03.2023", "x"⟩] ⟨2023, 4, 10⟩ =
      .ok ⟨⟨2023, 4, 1⟩, ⟨2023, 4, 10⟩⟩ ∧
    (∀ (fetchF : YMD → YMD → HttpOutcome),
      (fetchAllDataIncremental (.jsonArray [⟨"123", "15.03.2023", "x"⟩])
        (days_from_civil 2023 4 10 * msPerDay) fetchF).fetched =
          some ⟨⟨2023, 4, 1⟩, ⟨2023, 4, 10⟩⟩) ∧
    (∀ (data : List Record) (today : YMD) (latest : String) (iv : FetchWindow),
      findLatestExtractionDate data = some latest → latest ≠ "" →
      getNextMonthInterval latest = some iv → ymdLt today iv.endDate = true →
      computeWindow data today = .ok ⟨iv.startDate, today⟩) := by
  refine ⟨by decide, by decide, ?_, ?_⟩
  · intro fetchF
    have hcw : computeWindow
        (readExistingData (.jsonArray [⟨"123", "15.03.2023", "x"⟩]))
        (formatDate (days_from_civil 2023 4 10 * msPerDay)) =
        .ok ⟨⟨2023, 4, 1⟩, ⟨2023, 4, 10⟩⟩ := by decide
    rcases run_cases (.jsonArray [⟨"123", "15.03.2023", "x"⟩])
        (days_from_civil 2023 4 10 * msPerDay) fetchF with
      ⟨e, hcw2, hrun⟩ | ⟨w, hcw2, ⟨herr, hrun⟩ | ⟨nd, hnd, ⟨hem, hrun⟩ | ⟨hem, hrun⟩⟩⟩ <;>
      rw [hrun] <;> rw [hcw] at hcw2
    · exact Except.noConfusion hcw2
    all_goals
      simp only [Except.ok.injEq] at hcw2
      rw [hcw2]
  · intro data today latest iv hlat hne hiv hclip
    have hlen : ¬(data.length = 0) := by
      intro h0
      rw [findLatestExtractionDate, if_pos h0] at hlat
      exact Option.noConfusion hlat
    simp only [computeWindow, hlat, hiv]
    rw [if_neg hlen, if_neg hne, if_pos hclip]

/-- C4 counterexample: with the latest record dated `05.04.2023` and today
`10.04.2023` (same calendar month), the computed window has start
`2023-05-01` strictly after its clipped end `2023-04-10`, yet the run still
issues the fetch with exactly that inverted window — it does not skip the
remote request. -/
theorem C4_counterexample_fetch_issued :
    (fetchAllDataIncremental (.jsonArray [⟨"7", "05.04.2023", "p"⟩])
      (days_from_civil 2023 4 10 * msPerDay)
      (fun _ _ => .response true (some []))).fetched =
        some ⟨⟨2023, 5, 1⟩, ⟨2023, 4, 10⟩⟩ ∧
    ymdLt ⟨2023, 4, 10⟩ ⟨2023, 5, 1⟩ = true := by
  constructor
  · decide
  · decide

/-- C4 (amended): whenever the last extraction date lies in the same
calendar month as today, the window computation yields a window whose start
exceeds its clipped end — the "nothing to fetch" signal the spec describes —
but the run does not treat it specially: it still issues the remote fetch
with that inverted window (shown here for parsed years ≥ 100). -/
theorem C4_same_month_signal_but_fetch (data : List Record) (latest : String)
    (y m d d2 nowMs : Int) (fetchF : YMD → YMD → HttpOutcome)
    (hm1 : 1 ≤ m) (hm2 : m ≤ 12) (hd1 : 1 ≤ d) (hd2 : d ≤ daysInMonth y m)
    (hy : 100 ≤ y)
    (hlat : findLatestExtractionDate data = some latest) (hne : latest ≠ "")
    (hp : parseCustomDate latest = some (days_from_civil y m d * msPerDay))
    (htoday : formatDate nowMs = ⟨y, m, d2⟩) :
    computeWindow data (formatDate nowMs) =
      .ok ⟨⟨nextY y m, nextM m, 1⟩, ⟨y, m, d2⟩⟩ ∧
    ymdLt ⟨y, m, d2⟩ ⟨nextY y m, nextM m, 1⟩ = true ∧
    (fetchAllDataIncremental (.jsonArray data) nowMs fetchF).fetched =
      some ⟨⟨nextY y m, nextM m, 1⟩, ⟨y, m, d2⟩⟩ := by
  have hM2 := nextM_bounds m hm1 hm2
  have hiv := getNextMonthInterval_eq latest y m d hm1 hm2 hd1 hd2 hy hp
  have hlen : ¬(data.length = 0) := by
    intro h0
    rw [findLatestExtractionDate, if_pos h0] at hlat
    exact Option.noConfusion hlat
  have hdimb := daysInMonth_bounds (nextY y m) (nextM m)
  have hltend : ymdLt ⟨y, m, d2⟩
      ⟨nextY y m, nextM m, daysInMonth (nextY y m) (nextM m)⟩ = true := by
    simp only [ymdLt, Bool.or_eq_true, Bool.and_eq_true, decide_eq_true_eq,
      beq_iff_eq]
    rw [nextY.eq_def, nextM.eq_def]
    split <;> omega
  have hltstart : ymdLt ⟨y, m, d2⟩ ⟨nextY y m, nextM m, 1⟩ = true := by
    simp only [ymdLt, Bool.or_eq_true, Bool.and_eq_true, decide_eq_true_eq,
      beq_iff_eq]
    rw [nextY.eq_def, nextM.eq_def]
    split <;> omega
  have hcw : computeWindow data (formatDate nowMs) =
      .ok ⟨⟨nextY y m, nextM m, 1⟩, ⟨y, m, d2⟩⟩ := by
    simp only [computeWindow, hlat, hiv, htoday]
    rw [if_neg hlen, if_neg hne, if_pos hltend]
  refine ⟨hcw, hltstart, ?_⟩
  have hread : readExistingData (StoreFile.jsonArray data) = data := rfl
  rcases run_cases (.jsonArray data) nowMs fetchF with
    ⟨e, hcw2, hrun⟩ | ⟨w, hcw2, ⟨herr, hrun⟩ | ⟨nd, hnd, ⟨hem, hrun⟩ | ⟨hem, hrun⟩⟩⟩ <;>
    rw [hrun] <;> rw [hread, hcw] at hcw2
  · exact Except.noConfusion hcw2
  all_goals
    simp only [Except.ok.injEq] at hcw2
    rw [hcw2]

/-- C4 witness. -/
theorem C4_same_month_signal_but_fetch_witness :
    computeWindow [⟨"7", "05.04.2023", "p"⟩]
      (formatDate (days_from_civil 2023 4 10 * msPerDay)) =
      .ok ⟨⟨nextY 2023 4, nextM 4, 1⟩, ⟨2023, 4, 10⟩⟩ ∧
    ymdLt ⟨2023, 4, 10⟩ ⟨nextY 2023 4, nextM 4, 1⟩ = true ∧
    (fetchAllDataIncremental (.jsonArray [⟨"7", "05.04.2023", "p"⟩])
      (days_from_civil 2023 4 10 * msPerDay)
      (fun _ _ => .response true (some []))).fetched =
        some ⟨⟨nextY 2023 4, nextM 4, 1⟩, ⟨2023, 4, 10⟩⟩ :=
  C4_same_month_signal_but_fetch [⟨"7", "05.04.2023", "p"⟩] "05.04.2023"
    2023 4 5 10 (days_from_civil 2023 4 10 * msPerDay)
    (fun _ _ => .response true (some []))
    (by decide) (by decide) (by decide) (by decide) (by decide)
    (by decide) (by decide) (by decide) (by decide)
